import Mathlib

/-!
Verification of the npm-api core of `mcp-server-npm-plus`.

Shallow embedding of `src/npm-api.ts`: the HTTP fetch adapter, the registry /
download / bundle-size normalizers and the derived-metrics engine.  Each
operation is modelled as a pure function from the (already parsed) upstream
HTTP response to an `Except`-value: `Except.ok` is a fulfilled promise,
`Except.error` a rejected one.  Upstream JSON payloads are modelled as
permissive structures in which every field the source guards with `??` or `?.`
is an `Option`.  JS strings are finite sequences of characters, so the
character-level operations (the repository-URL normalization, the `@` test of
`getBundleSize`) are written over `String.data : List Char`.  JS numbers
standing for download counts and byte sizes are modelled as `Nat`, following
the data model (all counts are non-negative integers); `Math.round` and
`Math.floor` of their quotients are embedded as exact arithmetic on `ℚ`.
-/

/-- Outcome of an HTTP `GET`, as consumed by `fetchJson` (src/npm-api.ts:40-47):
`ok`/`status` mirror the response flags, `text` is the raw body text read on
failure, and `json` is the parsed body available on success. -/
structure HttpResponse (T : Type) where
  ok : Bool
  status : Nat
  text : String
  json : T

/-- The error message built at src/npm-api.ts:44:
`` `API error (${response.status}): ${text}` ``. -/
def apiErrorMsg (status : Nat) (text : String) : String :=
  "API error (" ++ toString status ++ "): " ++ text

/-- Embedding of `fetchJson` (src/npm-api.ts:40-47): on a non-ok response it throws the
`API error` message, otherwise it returns the parsed JSON body. -/
def fetchJson {T : Type} (r : HttpResponse T) : Except String T :=
  if r.ok then Except.ok r.json else Except.error (apiErrorMsg r.status r.text)

/-- Record `SearchResult` (src/npm-api.ts:17-23). -/
structure SearchResult where
  name : String
  version : String
  description : String
  keywords : List String
  downloads : Nat

/-- Record `PackageInfo` (src/npm-api.ts:5-15); the dependency records are
name-to-range association lists. -/
structure PackageInfo where
  name : String
  version : String
  description : String
  keywords : List String
  license : String
  homepage : String
  repository : String
  dependencies : List (String × String)
  devDependencies : List (String × String)

/-- Record `BundleSize` (src/npm-api.ts:25-31). -/
structure BundleSize where
  name : String
  version : String
  size : Nat
  gzip : Nat
  dependencyCount : Nat

/-- Record `DownloadStats` (src/npm-api.ts:33-38); the source field `end` is a Lean
keyword and is rendered `endDate`. -/
structure DownloadStats where
  «package» : String
  downloads : Nat
  start : String
  endDate : String

/-- One element of `objects[].package` in the search response
(src/npm-api.ts:54-62); `description` and `keywords` are guarded by `??` at
src/npm-api.ts:68-69 and are therefore optional here. -/
structure SearchPackageData where
  name : String
  version : String
  description : Option String
  keywords : Option (List String)

/-- One element of `objects` in the search response. -/
structure SearchObject where
  «package» : SearchPackageData

/-- The search response body (src/npm-api.ts:53-63). -/
structure SearchResponse where
  objects : List SearchObject

/-- Embedding of `searchPackages` (src/npm-api.ts:49-72), applied to the upstream response
of the search endpoint: maps every returned object to a `SearchResult`,
defaulting `description` to `""` and `keywords` to `[]`, and forcing
`downloads` to `0` (src/npm-api.ts:70). -/
def searchPackages (r : HttpResponse SearchResponse) : Except String (List SearchResult) :=
  (fetchJson r).map fun data =>
    data.objects.map fun obj =>
      { name := obj.package.name
        version := obj.package.version
        description := obj.package.description.getD ""
        keywords := obj.package.keywords.getD []
        downloads := 0 }

/-- The `repository` field of a registry document
(src/npm-api.ts:82): either a plain string or an object with an optional
`url`. -/
inductive RepositoryField where
  | str (s : String)
  | obj (url : Option String)

/-- The slice of a `versions[v]` entry read at src/npm-api.ts:87-90. -/
structure VersionData where
  dependencies : Option (List (String × String))
  devDependencies : Option (List (String × String))

/-- The registry package document (src/npm-api.ts:75-84).  `dist-tags` and
`versions` are accessed with `?.` at src/npm-api.ts:86-87, the remaining
fields with `??`, so all of them are optional here. -/
structure RegistryDoc where
  name : String
  distTags : Option (List (String × String))
  versions : Option (List (String × VersionData))
  description : Option String
  license : Option String
  homepage : Option String
  repository : Option RepositoryField
  keywords : Option (List String)

/-- Embedding of `.replace(/^git\+/, "")` (src/npm-api.ts:104): a regex anchored at the
start and not global, so exactly one leading `git+` is removed when present. -/
def stripGitPlus (s : List Char) : List Char :=
  if s.take 4 = ['g', 'i', 't', '+'] then s.drop 4 else s

/-- Embedding of `.replace(/\.git$/, "")` (src/npm-api.ts:105): a regex anchored at the
end, so exactly one trailing `.git` is removed when present.  (When
`s.length < 4` the dropped slice is `s` itself, which then has fewer than four
characters and cannot equal `['.','g','i','t']`.) -/
def stripDotGit (s : List Char) : List Char :=
  if s.drop (s.length - 4) = ['.', 'g', 'i', 't'] then s.take (s.length - 4) else s

/-- The repository normalization of `getPackageInfo` (src/npm-api.ts:103-105):
strip one leading `git+`, then one trailing `.git`. -/
def normalizeRepoUrl (s : String) : String :=
  String.mk (stripDotGit (stripGitPlus s.data))

/-- The `repoUrl` computation (src/npm-api.ts:92-95): a string repository is
used as-is, an object contributes its `url` (default `""`), absence yields
`""`. -/
def repoUrlString : Option RepositoryField → String
  | some (RepositoryField.str s) => s
  | some (RepositoryField.obj url) => url.getD ""
  | none => ""

/-- Embedding of `getPackageInfo` (src/npm-api.ts:74-110), applied to the upstream package
document response: resolves `latestVersion` from the `latest` dist-tag
(default `""`), sources the dependency records from `versions[latestVersion]`
(default empty), and applies the field defaults of src/npm-api.ts:97-109. -/
def getPackageInfo (r : HttpResponse RegistryDoc) : Except String PackageInfo :=
  (fetchJson r).map fun data =>
    let latestVersion := (data.distTags.bind (List.lookup "latest")).getD ""
    let latestData := (data.versions.bind (List.lookup latestVersion)).getD ⟨none, none⟩
    { name := data.name
      version := latestVersion
      description := data.description.getD ""
      license := data.license.getD "Unknown"
      homepage := data.homepage.getD ""
      repository := normalizeRepoUrl (repoUrlString data.repository)
      keywords := data.keywords.getD []
      dependencies := latestData.dependencies.getD []
      devDependencies := latestData.devDependencies.getD [] }

/-- The point-download response body (src/npm-api.ts:116-121). -/
structure PointDownloadData where
  «package» : Option String
  downloads : Nat
  start : String
  endDate : String

/-- Embedding of `getDownloads` (src/npm-api.ts:112-129).  The network is abstracted as an
oracle `fetch` from `(period, name)` — the variable parts of the request URL —
to the upstream response; `package` defaults to the input name. -/
def getDownloads (fetch : String → String → HttpResponse PointDownloadData)
    (name period : String) : Except String DownloadStats :=
  (fetchJson (fetch period name)).map fun data =>
    { «package» := data.package.getD name
      downloads := data.downloads
      start := data.start
      endDate := data.endDate }

/-- Embedding of `Promise.all` over already-settled outcomes, joined in positional order:
the value list on all-fulfilled, the leading rejection otherwise. -/
def promiseAll {ε α : Type} : List (Except ε α) → Except ε (List α)
  | [] => Except.ok []
  | Except.error e :: _ => Except.error e
  | Except.ok a :: xs => (promiseAll xs).map (a :: ·)

/-- Embedding of `compareDownloads` (src/npm-api.ts:131-139): one `getDownloads` per input
package, joined with `Promise.all` — no validation of the list length. -/
def compareDownloads (fetch : String → String → HttpResponse PointDownloadData)
    (packages : List String) (period : String) : Except String (List DownloadStats) :=
  promiseAll (packages.map fun pkg => getDownloads fetch pkg period)

/-- The package spec sent to the bundle-analysis endpoint
(src/npm-api.ts:142): `` name.includes("@") ? name : `${name}@latest` ``. -/
def bundlePkgSpec (name : String) : String :=
  if '@' ∈ name.data then name else name ++ "@latest"

/-- The bundlephobia response body (src/npm-api.ts:143-149); every field is
optional. -/
structure BundleData where
  name : Option String
  version : Option String
  size : Option Nat
  gzip : Option Nat
  dependencyCount : Option Nat

/-- Embedding of `getBundleSize` (src/npm-api.ts:141-158): requests `bundlePkgSpec name`
(the oracle is keyed by that spec) and applies the field defaults of
src/npm-api.ts:151-157; `name.split("@")[0]` is the portion before the first
`@`. -/
def getBundleSize (fetch : String → HttpResponse BundleData)
    (name : String) : Except String BundleSize :=
  (fetchJson (fetch (bundlePkgSpec name))).map fun data =>
    { name := data.name.getD (String.mk (name.data.takeWhile fun c => c ≠ '@'))
      version := data.version.getD "latest"
      size := data.size.getD 0
      gzip := data.gzip.getD 0
      dependencyCount := data.dependencyCount.getD 0 }

/-- One daily point of the range-download response (src/npm-api.ts:206). -/
structure RangePoint where
  day : String
  downloads : Nat

/-- The range-download response body (src/npm-api.ts:205-210); `downloads` is
guarded by `??` at src/npm-api.ts:212. -/
structure RangeResponse where
  downloads : Option (List RangePoint)
  start : String
  endDate : String
  «package» : Option String

/-- Embedding of `total` (src/npm-api.ts:213): `daily.reduce((sum, d) => sum + d.downloads, 0)`. -/
def totalOf (daily : List RangePoint) : Nat :=
  daily.foldl (fun sum d => sum + d.downloads) 0

/-- JS `Math.round` on a non-negative real value: round half up,
`⌊x + 1/2⌋`. -/
def mathRound (x : ℚ) : ℤ :=
  ⌊x + 1 / 2⌋

/-- Embedding of `avg` (src/npm-api.ts:214): `Math.round(total / daily.length)` when the
series is non-empty, `0` otherwise. -/
def avgOf (daily : List RangePoint) : Nat :=
  if 0 < daily.length then
    (mathRound ((totalOf daily : ℚ) / (daily.length : ℚ))).toNat
  else 0

/-- Embedding of `max` (src/npm-api.ts:215): `Math.max(...)` over the non-empty series,
`0` otherwise. -/
def maxOf (daily : List RangePoint) : Nat :=
  match daily.map fun d => d.downloads with
  | [] => 0
  | x :: xs => xs.foldl Nat.max x

/-- Embedding of `min` (src/npm-api.ts:216): `Math.min(...)` over the non-empty series,
`0` otherwise. -/
def minOf (daily : List RangePoint) : Nat :=
  match daily.map fun d => d.downloads with
  | [] => 0
  | x :: xs => xs.foldl Nat.min x

/-- The 8-glyph ramp `"▁▂▃▄▅▆▇█"` (src/npm-api.ts:219), as its character
sequence. -/
def blocks : List Char :=
  ['▁', '▂', '▃', '▄', '▅', '▆', '▇', '█']

/-- The sparkline (src/npm-api.ts:220-231): empty unless the series is
non-empty with positive maximum; otherwise one glyph per point at level
`min (floor ((downloads / max) * 7)) 7`, embedded over exact arithmetic as
`downloads * 7 / max` in `Nat`.  The index never exceeds `blocks.length - 1`,
so the `getD` default is unreachable. -/
def sparklineOf (daily : List RangePoint) : String :=
  let m := maxOf daily
  if 0 < daily.length ∧ 0 < m then
    String.mk (daily.map fun d =>
      blocks.getD (min (d.downloads * (blocks.length - 1) / m) (blocks.length - 1)) ' ')
  else ""

/-- The structured content of the `getDownloadTrends` report
(src/npm-api.ts:238-250): header fields, the four aggregates, the sparkline
and the last 14 daily points. -/
structure TrendReport where
  «package» : String
  start : String
  endDate : String
  total : Nat
  avg : Nat
  min : Nat
  max : Nat
  sparkline : String
  lastTwoWeeks : List RangePoint

/-- Embedding of `getDownloadTrends` (src/npm-api.ts:201-251), applied to the upstream
range response: computes the aggregates and sparkline over
`daily = data.downloads ?? []` and keeps `daily.slice(-14)`; the markdown
assembly of the report is presentation-only and is modelled by the structured
record. -/
def getDownloadTrends (name : String) (r : HttpResponse RangeResponse) :
    Except String TrendReport :=
  (fetchJson r).map fun data =>
    let daily := data.downloads.getD []
    { «package» := data.package.getD name
      start := data.start
      endDate := data.endDate
      total := totalOf daily
      avg := avgOf daily
      min := minOf daily
      max := maxOf daily
      sparkline := sparklineOf daily
      lastTwoWeeks := daily.drop (daily.length - 14) }

/-- The value of a fulfilled outcome, `none` for a rejected one. -/
def okValue {ε α : Type} : Except ε α → Option α
  | Except.ok a => some a
  | Except.error _ => none

theorem promiseAll_ok {ε α : Type} (l : List (Except ε α))
    (h : ∀ x ∈ l, ∃ a, x = Except.ok a) :
    ∃ rs, promiseAll l = Except.ok rs ∧ rs.length = l.length ∧
      ∀ i : Nat, rs[i]? = (l[i]?).bind okValue := by
  induction l with
  | nil => exact ⟨[], rfl, rfl, fun i => by simp⟩
  | cons x xs ih =>
    obtain ⟨a, rfl⟩ := h x (List.mem_cons_self x xs)
    obtain ⟨rs, hrs, hlen, hidx⟩ := ih fun y hy => h y (List.mem_cons_of_mem _ hy)
    refine ⟨a :: rs, ?_, by simp [hlen], ?_⟩
    · simp [promiseAll, hrs, Except.map]
    · intro i
      cases i with
      | zero => simp [okValue]
      | succ n => simpa using hidx n

theorem promiseAll_error_of_mem {ε α : Type} (l : List (Except ε α))
    (h : ∃ x ∈ l, okValue x = none) :
    ∃ e, promiseAll l = Except.error e := by
  induction l with
  | nil => simp at h
  | cons x xs ih =>
    cases x with
    | error e => exact ⟨e, rfl⟩
    | ok a =>
      obtain ⟨x', hx', hnone⟩ := h
      rcases List.mem_cons.1 hx' with rfl | hmem
      · simp [okValue] at hnone
      · obtain ⟨e, he⟩ := ih ⟨x', hmem, hnone⟩
        exact ⟨e, by simp [promiseAll, he, Except.map]⟩

theorem promiseAll_first_error {ε α : Type} (pre : List (Except ε α)) (e : ε)
    (post : List (Except ε α)) (h : ∀ x ∈ pre, ∃ a, x = Except.ok a) :
    promiseAll (pre ++ Except.error e :: post) = Except.error e := by
  induction pre with
  | nil => rfl
  | cons x xs ih =>
    obtain ⟨a, rfl⟩ := h x (List.mem_cons_self x xs)
    have := ih fun y hy => h y (List.mem_cons_of_mem _ hy)
    simp [promiseAll, this, Except.map]

/-- Claim C1: for every search response accepted by `searchPackages`, every
`SearchResult` in the returned sequence has `downloads = 0`, regardless of the
upstream response content. -/
theorem searchPackages_downloads_eq_zero (r : HttpResponse SearchResponse)
    (results : List SearchResult) (h : searchPackages r = Except.ok results) :
    ∀ res ∈ results, res.downloads = 0 := by
  intro res hres
  cases hok : r.ok with
  | false => simp [searchPackages, fetchJson, hok, Except.map] at h
  | true =>
    simp only [searchPackages, fetchJson, hok, if_pos, Except.map, Except.ok.injEq] at h
    rw [← h] at hres
    simp only [List.mem_map] at hres
    obtain ⟨obj, _, rfl⟩ := hres
    rfl

/-- A search response with one hit, used as the concrete input for C1. -/
def sampleSearchResponse : HttpResponse SearchResponse :=
  ⟨true, 200, "", ⟨[⟨⟨"lodash", "4.17.21", some "Lodash modular utilities",
    some ["modules", "util"]⟩⟩]⟩⟩

/-- The `SearchResult` produced from `sampleSearchResponse`. -/
def sampleSearchResult : SearchResult :=
  ⟨"lodash", "4.17.21", "Lodash modular utilities", ["modules", "util"], 0⟩

theorem searchPackages_downloads_eq_zero_witness : sampleSearchResult.downloads = 0 :=
  searchPackages_downloads_eq_zero sampleSearchResponse [sampleSearchResult] rfl
    sampleSearchResult (List.mem_singleton.mpr rfl)

/-- Claim C2 (counterexample): the repository normalization of
`getPackageInfo` is not idempotent on every input — `"x.git.git"` normalizes
to `"x.git"`, which normalizes again to `"x"`. -/
theorem normalizeRepoUrl_not_idempotent :
    ¬ normalizeRepoUrl (normalizeRepoUrl "x.git.git") = normalizeRepoUrl "x.git.git" := by
  decide

/-- Claim C2 (amended): the repository normalization is idempotent on every
input whose once-normalized form does not itself begin with `git+` or end with
`.git`; on inputs with a doubled marker (such as `"x.git.git"`) a second
application strips again. -/
theorem normalizeRepoUrl_idempotent_of_normalized (s : String)
    (h1 : (normalizeRepoUrl s).data.take 4 ≠ ['g', 'i', 't', '+'])
    (h2 : (normalizeRepoUrl s).data.drop ((normalizeRepoUrl s).data.length - 4) ≠
      ['.', 'g', 'i', 't']) :
    normalizeRepoUrl (normalizeRepoUrl s) = normalizeRepoUrl s := by
  set t := normalizeRepoUrl s with ht
  rw [normalizeRepoUrl, stripGitPlus, if_neg h1, stripDotGit, if_neg h2]

theorem normalizeRepoUrl_idempotent_witness :
    normalizeRepoUrl (normalizeRepoUrl "git+https://github.com/x/y.git") =
      normalizeRepoUrl "git+https://github.com/x/y.git" :=
  normalizeRepoUrl_idempotent_of_normalized "git+https://github.com/x/y.git"
    (by decide) (by decide)

/-- Claim C3: when every underlying fetch succeeds, `compareDownloads` returns
exactly one `DownloadStats` per input package, and the i-th element of the
result is the stats fetched for the i-th input package — the join is
positional, independent of completion order. -/
theorem compareDownloads_ordered (fetch : String → String → HttpResponse PointDownloadData)
    (packages : List String) (period : String)
    (h : ∀ p ∈ packages, ∃ s, getDownloads fetch p period = Except.ok s) :
    ∃ rs, compareDownloads fetch packages period = Except.ok rs ∧
      rs.length = packages.length ∧
      ∀ (i : Nat) (p : String), packages[i]? = some p →
        ∃ s, getDownloads fetch p period = Except.ok s ∧ rs[i]? = some s := by
  obtain ⟨rs, hrs, hlen, hidx⟩ :=
    promiseAll_ok (packages.map fun p => getDownloads fetch p period)
      (by
        intro x hx
        obtain ⟨p, hp, rfl⟩ := List.mem_map.1 hx
        exact h p hp)
  refine ⟨rs, hrs, by simpa using hlen, ?_⟩
  intro i p hip
  obtain ⟨s, hs⟩ := h p (List.mem_iff_getElem?.2 ⟨i, hip⟩)
  have hi := hidx i
  rw [List.getElem?_map, hip] at hi
  simp [hs, okValue] at hi
  exact ⟨s, hs, hi⟩

/-- A point-download oracle whose every response succeeds, used as concrete
input for C3 and C10. -/
def allOkPointFetch : String → String → HttpResponse PointDownloadData :=
  fun _ name => ⟨true, 200, "", ⟨some name, 12345, "2026-09-01", "2026-09-30"⟩⟩

theorem compareDownloads_ordered_witness :
    ∃ rs, compareDownloads allOkPointFetch ["react", "vue"] "last-month" = Except.ok rs ∧
      rs.length = ["react", "vue"].length ∧
      ∀ (i : Nat) (p : String), (["react", "vue"])[i]? = some p →
        ∃ s, getDownloads allOkPointFetch p "last-month" = Except.ok s ∧ rs[i]? = some s :=
  compareDownloads_ordered allOkPointFetch ["react", "vue"] "last-month"
    (by
      intro p hp
      rcases List.mem_cons.1 hp with rfl | hp'
      · exact ⟨_, rfl⟩
      · rcases List.mem_cons.1 hp' with rfl | h''
        · exact ⟨_, rfl⟩
        · simp at h'')

/-- Claim C4: when the fetch of any one input package fails, the whole
`compareDownloads` call fails — it returns no partial sequence — and the
rejection it propagates is the failing fetch's own error (the error of the
first failing package in input order). -/
theorem compareDownloads_fail_propagates
    (fetch : String → String → HttpResponse PointDownloadData) (period : String) :
    (∀ packages, (∃ p ∈ packages, ∃ e, getDownloads fetch p period = Except.error e) →
      ∃ e, compareDownloads fetch packages period = Except.error e) ∧
    (∀ pre p post e, (∀ q ∈ pre, ∃ s, getDownloads fetch q period = Except.ok s) →
      getDownloads fetch p period = Except.error e →
      compareDownloads fetch (pre ++ p :: post) period = Except.error e) := by
  constructor
  · intro packages hfail
    obtain ⟨p, hp, e, he⟩ := hfail
    refine promiseAll_error_of_mem _ ⟨getDownloads fetch p period, ?_, by simp [he, okValue]⟩
    exact List.mem_map_of_mem _ hp
  · intro pre p post e hpre hfail
    unfold compareDownloads
    rw [List.map_append, List.map_cons, hfail]
    refine promiseAll_first_error _ e _ ?_
    intro x hx
    obtain ⟨q, hq, rfl⟩ := List.mem_map.1 hx
    exact hpre q hq

/-- A point-download oracle that fails (404, body `"Not found"`) exactly for
the package `"bad"`, used as concrete input for C4. -/
def oneBadPointFetch : String → String → HttpResponse PointDownloadData :=
  fun _ name =>
    if name = "bad" then ⟨false, 404, "Not found", ⟨none, 0, "", ""⟩⟩
    else ⟨true, 200, "", ⟨some name, 7, "2026-09-01", "2026-09-30"⟩⟩

theorem compareDownloads_fail_propagates_witness :
    compareDownloads oneBadPointFetch ["good", "bad", "other"] "last-month" =
      Except.error "API error (404): Not found" :=
  (compareDownloads_fail_propagates oneBadPointFetch "last-month").2
    ["good"] "bad" ["other"] "API error (404): Not found"
    (by
      intro q hq
      rcases List.mem_singleton.1 hq with rfl
      exact ⟨_, rfl⟩)
    rfl

/-- Claim C10: `compareDownloads` performs no validation of the input list
length — for every list (empty, singleton, or longer than 10), when all
fetches succeed it returns exactly one `DownloadStats` per input, and on the
empty list it returns the empty sequence without error. -/
theorem compareDownloads_no_validation
    (fetch : String → String → HttpResponse PointDownloadData) (period : String) :
    (∀ packages, (∀ p ∈ packages, ∃ s, getDownloads fetch p period = Except.ok s) →
      ∃ rs, compareDownloads fetch packages period = Except.ok rs ∧
        rs.length = packages.length) ∧
    compareDownloads fetch [] period = Except.ok [] := by
  refine ⟨?_, rfl⟩
  intro packages h
  obtain ⟨rs, hrs, hlen, _⟩ :=
    promiseAll_ok (packages.map fun p => getDownloads fetch p period)
      (by
        intro x hx
        obtain ⟨p, hp, rfl⟩ := List.mem_map.1 hx
        exact h p hp)
  exact ⟨rs, hrs, by simpa using hlen⟩

theorem compareDownloads_no_validation_witness :
    compareDownloads allOkPointFetch [] "last-month" = Except.ok [] ∧
      ∃ rs, compareDownloads allOkPointFetch ["solo"] "last-month" = Except.ok rs ∧
        rs.length = 1 :=
  ⟨(compareDownloads_no_validation allOkPointFetch "last-month").2,
    (compareDownloads_no_validation allOkPointFetch "last-month").1 ["solo"]
      (by
        intro p hp
        rcases List.mem_singleton.1 hp with rfl
        exact ⟨_, rfl⟩)⟩

/-- Claim C5: for every registry document in which the versions entry for the
`latest` dist-tag is absent (including when the `latest` dist-tag itself is
absent), `getPackageInfo` succeeds and returns empty `dependencies` and
`devDependencies` mappings. -/
theorem getPackageInfo_missing_latest (r : HttpResponse RegistryDoc) (hok : r.ok = true)
    (habs : r.json.versions.bind
      (List.lookup ((r.json.distTags.bind (List.lookup "latest")).getD "")) = none) :
    ∃ info, getPackageInfo r = Except.ok info ∧
      info.dependencies = [] ∧ info.devDependencies = [] := by
  unfold getPackageInfo fetchJson
  rw [if_pos hok]
  refine ⟨_, rfl, ?_, ?_⟩
  · simp [habs]
  · simp [habs]

/-- A registry document whose `latest` dist-tag points at `"2.0.0"` while only
`"1.0.0"` appears under `versions`, used as concrete input for C5. -/
def sampleRegistryResponse : HttpResponse RegistryDoc :=
  ⟨true, 200, "",
    ⟨"left-pad", some [("latest", "2.0.0")],
      some [("1.0.0", ⟨some [("a", "^1.0.0")], none⟩)],
      some "String padding", some "MIT", none,
      some (RepositoryField.obj (some "git+https://github.com/left-pad/left-pad.git")),
      some ["pad"]⟩⟩

theorem getPackageInfo_missing_latest_witness :
    ∃ info, getPackageInfo sampleRegistryResponse = Except.ok info ∧
      info.dependencies = [] ∧ info.devDependencies = [] :=
  getPackageInfo_missing_latest sampleRegistryResponse rfl rfl

/-- Claim C8: a `getBundleSize` input containing an `@` version separator is
sent to the bundle-analysis endpoint unchanged; otherwise `@latest` is
appended — in particular `"lodash"` becomes `lodash@latest` and
`"lodash@4.17.21"` stays unchanged. -/
theorem bundlePkgSpec_spec :
    (∀ s : String, '@' ∈ s.data → bundlePkgSpec s = s) ∧
    (∀ s : String, '@' ∉ s.data → bundlePkgSpec s = s ++ "@latest") ∧
    bundlePkgSpec "lodash" = "lodash@latest" ∧
    bundlePkgSpec "lodash@4.17.21" = "lodash@4.17.21" := by
  refine ⟨?_, ?_, by decide, by decide⟩
  · intro s h
    simp [bundlePkgSpec, h]
  · intro s h
    simp [bundlePkgSpec, h]

theorem bundlePkgSpec_spec_witness :
    bundlePkgSpec "a@1.0.0" = "a@1.0.0" ∧ bundlePkgSpec "b" = "b@latest" :=
  ⟨bundlePkgSpec_spec.1 "a@1.0.0" (by decide), bundlePkgSpec_spec.2.1 "b" (by decide)⟩

/-- Claim C9: every HTTP response with `ok = false` makes the calling
operation fail with an error whose message contains the numeric status code
and the raw response body text. -/
theorem fetchJson_error_message {T : Type} (r : HttpResponse T) (h : r.ok = false) :
    ∃ msg, fetchJson r = Except.error msg ∧
      (∃ l₁ l₂, msg.data = l₁ ++ (toString r.status).data ++ l₂) ∧
      (∃ l₃ l₄, msg.data = l₃ ++ r.text.data ++ l₄) := by
  refine ⟨apiErrorMsg r.status r.text, ?_, ?_, ?_⟩
  · simp [fetchJson, h]
  · exact ⟨"API error (".data, ("): " ++ r.text).data, by simp [apiErrorMsg]⟩
  · exact ⟨("API error (" ++ toString r.status ++ "): ").data, [], by simp [apiErrorMsg]⟩

/-- A 404 response with body `"Not found"`, used as concrete input for C9. -/
def notFoundResponse : HttpResponse PointDownloadData :=
  ⟨false, 404, "Not found", ⟨none, 0, "", ""⟩⟩

theorem fetchJson_error_message_witness :
    ∃ msg, fetchJson notFoundResponse = Except.error msg ∧
      (∃ l₁ l₂, msg.data = l₁ ++ (toString notFoundResponse.status).data ++ l₂) ∧
      (∃ l₃ l₄, msg.data = l₃ ++ notFoundResponse.text.data ++ l₄) :=
  fetchJson_error_message notFoundResponse rfl

theorem fetchJson_ok {T : Type} (r : HttpResponse T) (h : r.ok = true) :
    fetchJson r = Except.ok r.json := by
  simp [fetchJson, h]

theorem getDownloadTrends_ok (name : String) (r : HttpResponse RangeResponse)
    (h : r.ok = true) :
    getDownloadTrends name r = Except.ok
      { «package» := r.json.package.getD name
        start := r.json.start
        endDate := r.json.endDate
        total := totalOf (r.json.downloads.getD [])
        avg := avgOf (r.json.downloads.getD [])
        min := minOf (r.json.downloads.getD [])
        max := maxOf (r.json.downloads.getD [])
        sparkline := sparklineOf (r.json.downloads.getD [])
        lastTwoWeeks := (r.json.downloads.getD []).drop
          ((r.json.downloads.getD []).length - 14) } := by
  rw [getDownloadTrends, fetchJson_ok r h]
  rfl

theorem foldl_add_downloads (l : List RangePoint) (n : Nat) :
    l.foldl (fun sum d => sum + d.downloads) n = n + (l.map fun d => d.downloads).sum := by
  induction l generalizing n with
  | nil => simp
  | cons x xs ih => simp [ih, Nat.add_assoc]

/-- Claim C6: on an empty daily series `getDownloadTrends` reports
`total = avg = min = max = 0` with an empty sparkline and raises no error; on
any series the total is the sum of the daily counts, and on a non-empty series
the average is the round-half-up of the real quotient `total / length`. -/
theorem getDownloadTrends_metrics :
    (∀ (name : String) (r : HttpResponse RangeResponse), r.ok = true →
      r.json.downloads.getD [] = [] →
      getDownloadTrends name r = Except.ok
        ⟨r.json.package.getD name, r.json.start, r.json.endDate, 0, 0, 0, 0, "", []⟩) ∧
    (∀ daily : List RangePoint, totalOf daily = (daily.map fun d => d.downloads).sum) ∧
    (∀ daily : List RangePoint, daily ≠ [] →
      (avgOf daily : ℤ) = round ((totalOf daily : ℚ) / (daily.length : ℚ))) := by
  refine ⟨?_, ?_, ?_⟩
  · intro name r hok hempty
    rw [getDownloadTrends_ok name r hok, hempty]
    rfl
  · intro daily
    simpa [totalOf] using foldl_add_downloads daily 0
  · intro daily hne
    have hn : 0 < daily.length := List.length_pos.2 hne
    rw [avgOf, if_pos hn, mathRound, round_eq]
    exact Int.toNat_of_nonneg (Int.floor_nonneg.2 (by positivity))

/-- A range response whose daily series is empty, used as concrete input for
C6. -/
def emptyRangeResponse : HttpResponse RangeResponse :=
  ⟨true, 200, "", ⟨some [], "2026-01-01", "2026-01-31", some "newpkg"⟩⟩

/-- A three-point daily series with counts `0, 5, 10`, used as concrete input
for C6 and C7. -/
def sampleDaily : List RangePoint :=
  [⟨"2026-01-01", 0⟩, ⟨"2026-01-02", 5⟩, ⟨"2026-01-03", 10⟩]

theorem getDownloadTrends_metrics_witness :
    getDownloadTrends "newpkg" emptyRangeResponse = Except.ok
      ⟨"newpkg", "2026-01-01", "2026-01-31", 0, 0, 0, 0, "", []⟩ ∧
    (avgOf sampleDaily : ℤ) = round ((totalOf sampleDaily : ℚ) / (sampleDaily.length : ℚ)) :=
  ⟨getDownloadTrends_metrics.1 "newpkg" emptyRangeResponse rfl rfl,
    getDownloadTrends_metrics.2.2 sampleDaily (by simp [sampleDaily])⟩

theorem natFloor_div_mul_seven (d m : Nat) :
    ⌊(d : ℚ) / (m : ℚ) * 7⌋₊ = d * 7 / m := by
  have h : (d : ℚ) / (m : ℚ) * 7 = ((d * 7 : ℕ) : ℚ) / ((m : ℕ) : ℚ) := by
    push_cast
    ring
  rw [h, Nat.floor_div_eq_div]

/-- Claim C7: on a non-empty series with positive maximum, the sparkline has
exactly one glyph per series point, every glyph is one of the 8 ramp levels,
and the i-th glyph's level index is `floor ((downloads / max) * 7)` clamped to
`[0, 7]`. -/
theorem sparkline_glyphs (daily : List RangePoint) (h1 : daily ≠ [])
    (h2 : 0 < maxOf daily) :
    (sparklineOf daily).length = daily.length ∧
    (∀ c ∈ (sparklineOf daily).data, c ∈ blocks) ∧
    (∀ i : Nat, i < daily.length →
      (sparklineOf daily).data[i]? = some (blocks.getD
        (min ⌊((daily.getD i ⟨"", 0⟩).downloads : ℚ) / (maxOf daily : ℚ) * 7⌋₊ 7) ' ')) := by
  have hcond : 0 < daily.length ∧ 0 < maxOf daily := ⟨List.length_pos.2 h1, h2⟩
  have hspark : sparklineOf daily = String.mk (daily.map fun d =>
      blocks.getD (min (d.downloads * (blocks.length - 1) / maxOf daily)
        (blocks.length - 1)) ' ') := by
    simp only [sparklineOf]
    rw [if_pos hcond]
  refine ⟨?_, ?_, ?_⟩
  · rw [hspark]
    exact List.length_map daily _
  · intro c hc
    rw [hspark] at hc
    simp only [List.mem_map] at hc
    obtain ⟨d, _, rfl⟩ := hc
    have hidx : min (d.downloads * (blocks.length - 1) / maxOf daily)
        (blocks.length - 1) < blocks.length :=
      lt_of_le_of_lt (min_le_right _ _) (by decide)
    rw [List.getD_eq_getElem _ _ hidx]
    exact List.getElem_mem _
  · intro i hi
    rw [hspark]
    show (daily.map _)[i]? = _
    rw [List.getElem?_map, List.getElem?_eq_getElem hi]
    rw [List.getD_eq_getElem daily ⟨"", 0⟩ hi]
    rw [show blocks.length - 1 = 7 from rfl, natFloor_div_mul_seven]
    rfl

theorem sparkline_glyphs_witness : (sparklineOf sampleDaily).length = 3 :=
  (sparkline_glyphs sampleDaily (by simp [sampleDaily]) (by decide)).1
